import Mathlib

/-!
Verification of the `web_parser` universal company scraper
(`tools.py`): deduplication keys, the save pipeline, URL
normalization, social-media categorization, phone extraction and
output filename slugs, shallowly embedded as executable Lean
definitions, with theorems about the documented properties.
-/

set_option maxHeartbeats 1000000

/-- Whitespace characters recognised by Python's `str.strip()` and the
regex class `\s` (ASCII fragment, which is all this code base uses). -/
def isPyWs (c : Char) : Bool :=
  c = ' ' ∨ c = '\t' ∨ c = '\n' ∨ c = '\r' ∨ c = '\x0b' ∨ c = '\x0c'

/-- ASCII lowering of one character, as Python's `str.lower()` acts on
the ASCII range. -/
def pyLowerChar (c : Char) : Char :=
  if 'A' ≤ c ∧ c ≤ 'Z' then Char.ofNat (c.toNat + 32) else c

/-- Python `str.lower()` (ASCII fragment). -/
def pyLower (s : String) : String :=
  String.mk (s.data.map pyLowerChar)

/-- Python `str.strip()`: drop leading and trailing whitespace. -/
def pyStrip (s : String) : String :=
  String.mk (((s.data.dropWhile isPyWs).reverse.dropWhile isPyWs).reverse)

/-- Does the first list occur at the head of the second one? -/
def listHasPre : List Char → List Char → Bool
  | [], _ => true
  | _ :: _, [] => false
  | a :: p, b :: l => if a = b then listHasPre p l else false

/-- Does the first list occur anywhere inside the second one? -/
def listHasSub (pat : List Char) : List Char → Bool
  | [] => listHasPre pat []
  | c :: rest => listHasPre pat (c :: rest) || listHasSub pat rest

/-- Python `s.startswith(p)`. -/
def strHasPre (p s : String) : Bool := listHasPre p.data s.data

/-- Python `sub in s` (substring containment). -/
def containsSub (s sub : String) : Bool := listHasSub sub.data s.data

/-- Membership of a string in a list of strings; models membership in a
Python `set` of strings. -/
def strMem (k : String) : List String → Bool
  | [] => false
  | x :: rest => if x = k then true else strMem k rest

/-- Python `sep.join(parts)`. -/
def joinSep (sep : String) : List String → String
  | [] => ""
  | [x] => x
  | x :: y :: rest => x ++ sep ++ joinSep sep (y :: rest)

/-- Python `str.replace(pat, rep)`: replace every occurrence, scanning
left to right over non-overlapping matches. -/
def replAll (pat rep : List Char) : List Char → List Char
  | [] => []
  | c :: rest =>
    if h : pat ≠ [] ∧ listHasPre pat (c :: rest) then
      rep ++ replAll pat rep ((c :: rest).drop pat.length)
    else
      c :: replAll pat rep rest
termination_by l => l.length
decreasing_by
  · simp only [List.length_drop, List.length_cons]
    have : 1 ≤ pat.length := by
      cases hp : pat with
      | nil => exact absurd hp h.1
      | cons a t => simp
    omega
  · simp

/-- One field of a company record: Python `(d.get(k) or "").strip().lower()`
together with the guard `x.strip().lower() if x else ""` used in
`_generate_company_key`. -/
def normField (v : Option String) : String :=
  pyLower (pyStrip (v.getD ""))

/-- A company record, the unit of output of the scraper
(`extract_company_details` builds dictionaries of this shape; fields
that were never set or were set to Python `None` are `none`). -/
structure Company where
  name : Option String
  website_url : Option String
  source_url : Option String
  company_index : Option Nat
  socials : List String
deriving Repr, DecidableEq

/-- The composite key builder of `_generate_company_key`, applied to the
already trimmed and case-folded `name`, `website_url` and `source_url`
values: labeled non-empty parts joined with `"|"`, with the (dead)
source-url fallback branch of the source retained. -/
def keyOf (name website source_url : String) : String :=
  let key_parts :=
    (if name ≠ "" then ["name:" ++ name] else [])
      ++ (if website ≠ "" then ["website:" ++ website] else [])
      ++ (if source_url ≠ "" then ["source:" ++ source_url] else [])
  let key_parts₂ :=
    if key_parts = [] ∧ source_url ≠ "" then ["source:" ++ source_url]
    else key_parts
  joinSep "|" key_parts₂

/-- `_generate_company_key`: normalize the three identity fields and
build the composite key. -/
def generate_company_key (c : Company) : String :=
  keyOf (normField c.name) (normField c.website_url) (normField c.source_url)

/-- The mutable session state of `UniversalCompanyScraper`:
the in-memory record list, the dedup key set, and the two output files
(`none` models an absent file). -/
structure ScraperState where
  companies_data : List Company
  processed_companies : List String
  jsonFile : Option (List Company)
  csvFile : Option (List Company)
deriving Repr, DecidableEq

/-- `_is_duplicate_company`: key membership in the processed set. -/
def is_duplicate_company (s : ScraperState) (c : Company) : Bool :=
  strMem (generate_company_key c) s.processed_companies

/-- `_save_company_immediately`, with the point of a possible I/O
exception made explicit: `jsonWriteFails = true` models the file write
raising after the in-memory mutations (the `except` branch then returns
`False` without rolling anything back). -/
def save_company_fallible (s : ScraperState) (c : Company)
    (jsonWriteFails : Bool) : ScraperState × Bool :=
  if is_duplicate_company s c then (s, false)
  else
    let c_idx := { c with company_index := some (s.companies_data.length + 1) }
    let key := generate_company_key c_idx
    let processed := s.processed_companies ++ [key]
    let data := s.companies_data ++ [c_idx]
    if jsonWriteFails then
      ({ s with companies_data := data, processed_companies := processed }, false)
    else
      ({ companies_data := data,
         processed_companies := processed,
         jsonFile := some data,
         csvFile := some ((s.csvFile.getD []) ++ [c_idx]) }, true)

/-- `_save_company_immediately` on the normal (exception-free) path. -/
def save_company_immediately (s : ScraperState) (c : Company) :
    ScraperState × Bool :=
  save_company_fallible s c false

/-- `_load_existing_data` as run by `__init__`: if the JSON document
file exists it becomes the in-memory list and the dedup key set is
rebuilt from it; the CSV file is never read back. -/
def load_existing_data (jsonFile csvFile : Option (List Company)) :
    ScraperState :=
  match jsonFile with
  | none => ⟨[], [], none, csvFile⟩
  | some l => ⟨l, l.map generate_company_key, some l, csvFile⟩

/-- A fresh session with no files on disk. -/
def initialState : ScraperState := load_existing_data none none

/-- Submitting a sequence of candidate records to
`_save_company_immediately`, one after the other. -/
def run_save (s : ScraperState) (cs : List Company) : ScraperState :=
  cs.foldl (fun st c => (save_company_immediately st c).1) s

/-- The facebook-family substrings tested by `_categorize_social_media`. -/
def fbPlats : List String := ["facebook.com", "fb.com", "fb.me"]

/-- The instagram-family substrings. -/
def igPlats : List String := ["instagram.com", "instagr.am"]

/-- The linkedin-family substrings. -/
def liPlats : List String := ["linkedin.com", "lnkd.in"]

/-- The twitter/X-family substrings. -/
def twPlats : List String := ["twitter.com", "t.co", "x.com"]

/-- Python `any(platform in url_lower for platform in plats)`. -/
def matchesAny (url_lower : String) (plats : List String) : Bool :=
  plats.any (fun p => containsSub url_lower p)

/-- The result of `_categorize_social_media` (after the final
`" | ".join` that turns the `other_socials` list into a string). -/
structure SocialCategories where
  facebook : String
  instagram : String
  linkedin : String
  twitter : String
  other_socials : String
deriving Repr, DecidableEq

/-- The loop accumulator of `_categorize_social_media` before the final
join of `other_socials`. -/
structure CatAcc where
  facebook : String
  instagram : String
  linkedin : String
  twitter : String
  others : List String
deriving Repr, DecidableEq

/-- One iteration of the categorization loop: skip falsy URLs, then
test the four platform families in order on the lowercased URL; a named
slot is only filled if still empty; anything else is appended to the
`other_socials` list. -/
def catStep (acc : CatAcc) (social_url : String) : CatAcc :=
  if social_url = "" then acc
  else
    let url_lower := pyLower social_url
    if matchesAny url_lower fbPlats then
      (if acc.facebook = "" then { acc with facebook := social_url } else acc)
    else if matchesAny url_lower igPlats then
      (if acc.instagram = "" then { acc with instagram := social_url } else acc)
    else if matchesAny url_lower liPlats then
      (if acc.linkedin = "" then { acc with linkedin := social_url } else acc)
    else if matchesAny url_lower twPlats then
      (if acc.twitter = "" then { acc with twitter := social_url } else acc)
    else { acc with others := acc.others ++ [social_url] }

/-- `_categorize_social_media`: `none` models Python `None`; a falsy
input (None or the empty list) short-circuits to the all-empty result,
otherwise the loop runs and `other_socials` is `" | "`-joined. -/
def categorize_social_media (socials_list : Option (List String)) :
    SocialCategories :=
  match socials_list with
  | none => ⟨"", "", "", "", ""⟩
  | some [] => ⟨"", "", "", "", ""⟩
  | some urls =>
    let acc := urls.foldl catStep ⟨"", "", "", "", []⟩
    ⟨acc.facebook, acc.instagram, acc.linkedin, acc.twitter,
      joinSep " | " acc.others⟩

/-- Split an absolute URL into its scheme and the remainder after
`"://"`. `normalize_url` only ever resolves against the scraper's
`base_url`, which is an absolute http(s) URL. -/
def schemeSplit (u : String) : Option (String × String) :=
  if strHasPre "https://" u then some ("https", String.mk (u.data.drop 8))
  else if strHasPre "http://" u then some ("http", String.mk (u.data.drop 7))
  else none

/-- The directory part of a URL path: everything up to and including
the last `/`; an empty path acts as the root `/`. -/
def dirPart (p : String) : String :=
  if p = "" then "/"
  else String.mk ((p.data.reverse.dropWhile (fun c => c ≠ '/')).reverse)

/-- Models `urllib.parse.urljoin` for an absolute http(s) base URL and a
relative reference without scheme, query or dot segments — the only
shapes `normalize_url` feeds it: a root-relative reference replaces the
base path, any other relative reference is appended to the directory of
the base path. -/
def urljoin (base rel : String) : String :=
  match schemeSplit base with
  | none => rel
  | some (scheme, rest) =>
    let netloc := String.mk (rest.data.takeWhile (fun c => c ≠ '/'))
    let path := String.mk (rest.data.dropWhile (fun c => c ≠ '/'))
    if strHasPre "/" rel then scheme ++ "://" ++ netloc ++ rel
    else scheme ++ "://" ++ netloc ++ dirPart path ++ rel

/-- `normalize_url` of `UniversalCompanyScraper` (the instance's
`base_url` passed explicitly): empty input is `None`; protocol-relative
input gets `https:`; root-relative input is joined to the base; input
without an http(s) scheme is treated as a bare domain when it contains
a dot and does not start with one, and otherwise joined to the base;
anything else is already absolute and returned unchanged. -/
def normalize_url (base_url url : String) : Option String :=
  if url = "" then none
  else if strHasPre "//" url then some ("https:" ++ url)
  else if strHasPre "/" url then some (urljoin base_url url)
  else if !(strHasPre "http://" url || strHasPre "https://" url) then
    if containsSub url "." && !(strHasPre "." url) then
      some ("https://" ++ url)
    else some (urljoin base_url url)
  else some url

/-- A character kept by the cleanup `re.sub(r"[^\d\+\-\s\(\)]", "", phone)`
in `extract_phone_from_text`. -/
def isPhoneChar (c : Char) : Bool :=
  c.isDigit || c = '+' || c = '-' || isPyWs c || c = '(' || c = ')'

/-- The cleanup substitution of `extract_phone_from_text`. -/
def cleanPhone (s : String) : String :=
  String.mk (s.data.filter isPhoneChar)

/-- The pattern loop of `extract_phone_from_text`.  A pattern is
modelled as the action of `re.search` with it: a function from the text
to the matched group, if any (the pattern list `helpers.phone_patterns`
is configuration data living outside this repository). -/
def phoneLoop (text : String) :
    List (String → Option String) → Option String
  | [] => none
  | p :: ps =>
    match p text with
    | none => phoneLoop text ps
    | some m =>
      let phone := cleanPhone m
      if 10 ≤ phone.length then some (pyStrip phone) else phoneLoop text ps

/-- `extract_phone_from_text`: falsy text short-circuits to `None`,
otherwise the patterns are scanned in order. -/
def extract_phone_from_text (patterns : List (String → Option String))
    (text : String) : Option String :=
  if text = "" then none else phoneLoop text patterns

/-- The `netloc` of `urllib.parse.urlparse` on an absolute URL: the
authority between `"://"` and the next `/`, `?` or `#`. -/
def urlNetloc (u : String) : String :=
  match schemeSplit u with
  | none => ""
  | some (_, rest) =>
    String.mk (rest.data.takeWhile (fun c => c ≠ '/' ∧ c ≠ '?' ∧ c ≠ '#'))

/-- The domain slug computed in `UniversalCompanyScraper.__init__`:
`netloc.replace("www.", "").replace(".", "_")`. -/
def scraperDomain (base_url : String) : String :=
  String.mk (replAll ".".data "_".data
    (replAll "www.".data "".data (urlNetloc base_url).data))

/-- `self.csv_filename` as set in `__init__`. -/
def csvFilename (base_url : String) : String :=
  scraperDomain base_url ++ "_companies.csv"

/-- `self.json_filename` as set in `__init__`. -/
def jsonFilename (base_url : String) : String :=
  scraperDomain base_url ++ "_companies.json"

/-- The slug the specification describes: only a leading `www.` is
stripped from the domain, then every dot becomes an underscore.
Modelled from the spec: `filenames derived from the site's domain
(leading www. stripped, dots replaced with underscores)`. -/
def claimSlug (netloc : String) : String :=
  let stripped :=
    if strHasPre "www." netloc then String.mk (netloc.data.drop 4) else netloc
  String.mk (stripped.data.map (fun c => if c = '.' then '_' else c))

/-- Splitting a character list at every `'|'`; the decoding direction
for composite dedup keys. -/
def splitPipe : List Char → List (List Char)
  | [] => [[]]
  | c :: rest =>
    if c = '|' then [] :: splitPipe rest
    else (c :: (splitPipe rest).headD []) :: (splitPipe rest).tail

/-- Read one labeled key part back into a (name, website, source)
accumulator. -/
def classifyPart (acc : String × String × String) (part : List Char) :
    String × String × String :=
  if listHasPre "name:".data part then
    (String.mk (part.drop 5), acc.2.1, acc.2.2)
  else if listHasPre "website:".data part then
    (acc.1, String.mk (part.drop 8), acc.2.2)
  else if listHasPre "source:".data part then
    (acc.1, acc.2.1, String.mk (part.drop 7))
  else acc

/-- Decode a composite dedup key back into its three fields. -/
def decodeKey (key : String) : String × String × String :=
  (splitPipe key.data).foldl classifyPart ("", "", "")

/-- A non-empty URL matching the facebook family — the slot test of the
first branch of the categorization loop. -/
def isFbB (u : String) : Bool :=
  if u = "" then false else matchesAny (pyLower u) fbPlats

/-- A non-empty URL reaching and matching the instagram branch. -/
def isIgB (u : String) : Bool :=
  if u = "" then false
  else if matchesAny (pyLower u) fbPlats then false
  else matchesAny (pyLower u) igPlats

/-- A non-empty URL reaching and matching the linkedin branch. -/
def isLiB (u : String) : Bool :=
  if u = "" then false
  else if matchesAny (pyLower u) fbPlats then false
  else if matchesAny (pyLower u) igPlats then false
  else matchesAny (pyLower u) liPlats

/-- A non-empty URL reaching and matching the twitter/X branch. -/
def isTwB (u : String) : Bool :=
  if u = "" then false
  else if matchesAny (pyLower u) fbPlats then false
  else if matchesAny (pyLower u) igPlats then false
  else if matchesAny (pyLower u) liPlats then false
  else matchesAny (pyLower u) twPlats

/-- A non-empty URL matching none of the four platform families. -/
def isOtherB (u : String) : Bool :=
  if u = "" then false
  else if matchesAny (pyLower u) fbPlats then false
  else if matchesAny (pyLower u) igPlats then false
  else if matchesAny (pyLower u) liPlats then false
  else if matchesAny (pyLower u) twPlats then false
  else true

/-- The claimed result of categorization, stated independently of the
loop: each named slot holds the first URL of its family (priority
order facebook, instagram, linkedin, twitter), everything else is
joined, in encounter order, into `other_socials`. -/
def catSpec (urls : List String) : SocialCategories :=
  ⟨(urls.find? isFbB).getD "", (urls.find? isIgB).getD "",
   (urls.find? isLiB).getD "", (urls.find? isTwB).getD "",
   joinSep " | " (urls.filter isOtherB)⟩

theorem strData_append (a b : String) : (a ++ b).data = a.data ++ b.data := rfl

theorem strMk_data (s : String) : String.mk s.data = s := rfl

theorem strEq_iff_data (a b : String) : a = b ↔ a.data = b.data := by
  constructor
  · intro h; rw [h]
  · intro h; cases a; cases b; exact congrArg String.mk h

theorem strMem_iff_mem (k : String) (l : List String) :
    strMem k l = true ↔ k ∈ l := by
  induction l with
  | nil => simp [strMem]
  | cons x rest ih =>
    by_cases h : x = k
    · subst h; simp [strMem]
    · simp [strMem, h, ih, Ne.symm h]

theorem strMem_append (k : String) (l₁ l₂ : List String) :
    strMem k (l₁ ++ l₂) = (strMem k l₁ || strMem k l₂) := by
  induction l₁ with
  | nil => simp [strMem]
  | cons x rest ih =>
    by_cases h : x = k <;> simp [strMem, h, ih]

theorem save_fallible_dup (s : ScraperState) (c : Company) (b : Bool)
    (h : is_duplicate_company s c = true) :
    save_company_fallible s c b = (s, false) := by
  simp [save_company_fallible, h]

theorem save_dup_eq (s : ScraperState) (c : Company)
    (h : is_duplicate_company s c = true) :
    save_company_immediately s c = (s, false) :=
  save_fallible_dup s c false h

theorem key_update_index (c : Company) (x : Option Nat) :
    generate_company_key { c with company_index := x } =
      generate_company_key c := rfl

theorem save_accept (s : ScraperState) (c : Company)
    (h : is_duplicate_company s c = false) :
    save_company_immediately s c =
      ({ companies_data :=
           s.companies_data ++
             [{ c with company_index := some (s.companies_data.length + 1) }],
         processed_companies := s.processed_companies ++ [generate_company_key c],
         jsonFile :=
           some (s.companies_data ++
             [{ c with company_index := some (s.companies_data.length + 1) }]),
         csvFile :=
           some ((s.csvFile.getD []) ++
             [{ c with company_index := some (s.companies_data.length + 1) }]) },
       true) := by
  simp [save_company_immediately, save_company_fallible, h, key_update_index]

/-- After any single submission, the key of the submitted record is in
the processed set. -/
theorem key_mem_after_save (s : ScraperState) (c : Company) :
    strMem (generate_company_key c)
      ((save_company_immediately s c).1).processed_companies = true := by
  by_cases h : is_duplicate_company s c
  · rw [save_dup_eq s c h]
    exact h
  · rw [save_accept s c (by simpa using h)]
    simp [strMem_append, strMem]

/-- Keys already in the processed set stay there across a submission. -/
theorem key_mem_preserved (s : ScraperState) (c : Company) (k : String)
    (h : strMem k s.processed_companies = true) :
    strMem k ((save_company_immediately s c).1).processed_companies = true := by
  by_cases hd : is_duplicate_company s c
  · rw [save_dup_eq s c hd]; exact h
  · rw [save_accept s c (by simpa using hd)]
    simp [strMem_append, h]

/-- The dense-index invariant: the stored `company_index` values are
exactly `1..N` in list order. -/
def idxOk (s : ScraperState) : Prop :=
  s.companies_data.map Company.company_index =
    (List.range s.companies_data.length).map (fun i => some (i + 1))

theorem idxOk_initial : idxOk initialState := by
  simp [idxOk, initialState, load_existing_data]

theorem idxOk_save (s : ScraperState) (c : Company) (h : idxOk s) :
    idxOk (save_company_immediately s c).1 := by
  by_cases hd : is_duplicate_company s c
  · rw [save_dup_eq s c hd]; exact h
  · rw [save_accept s c (by simpa using hd)]
    unfold idxOk at h ⊢
    simp only [List.map_append, List.length_append, List.map_cons,
      List.map_nil, List.length_cons, List.length_nil]
    rw [h, List.range_succ]
    simp

theorem idxOk_run (s : ScraperState) (cs : List Company) (h : idxOk s) :
    idxOk (run_save s cs) := by
  induction cs generalizing s with
  | nil => exact h
  | cons c rest ih =>
    exact ih ((save_company_immediately s c).1) (idxOk_save s c h)

theorem listHasPre_append_self (p l : List Char) :
    listHasPre p (p ++ l) = true := by
  induction p with
  | nil => simp [listHasPre]
  | cons a t ih => simp [listHasPre, ih]

theorem listHasPre_ne_head (a b : Char) (p l : List Char) (h : a ≠ b) :
    listHasPre (a :: p) (b :: l) = false := by
  simp [listHasPre, h]

theorem splitPipe_sep (a r : List Char) (h : '|' ∉ a) :
    splitPipe (a ++ '|' :: r) = a :: splitPipe r := by
  induction a with
  | nil => simp [splitPipe]
  | cons c t ih =>
    simp only [List.mem_cons, not_or] at h
    rw [List.cons_append]
    show splitPipe (c :: (t ++ '|' :: r)) = (c :: t) :: splitPipe r
    simp [splitPipe, Ne.symm h.1, ih h.2]

theorem splitPipe_noPipe (a : List Char) (h : '|' ∉ a) :
    splitPipe a = [a] := by
  induction a with
  | nil => rfl
  | cons c t ih =>
    simp only [List.mem_cons, not_or] at h
    simp [splitPipe, Ne.symm h.1, ih h.2]

theorem classify_name_part (acc : String × String × String) (n : List Char) :
    classifyPart acc ("name:".data ++ n) = (String.mk n, acc.2.1, acc.2.2) := by
  have hpre : listHasPre "name:".data ("name:".data ++ n) = true :=
    listHasPre_append_self _ _
  simp only [classifyPart, hpre, if_true]
  rw [show (5 : ℕ) = ("name:".data).length from rfl, List.drop_left]

theorem classify_website_part (acc : String × String × String) (w : List Char) :
    classifyPart acc ("website:".data ++ w) = (acc.1, String.mk w, acc.2.2) := by
  have h1 : listHasPre "name:".data ("website:".data ++ w) = false := by
    show listHasPre ('n' :: _) ('w' :: _) = false
    exact listHasPre_ne_head _ _ _ _ (by decide)
  have hpre : listHasPre "website:".data ("website:".data ++ w) = true :=
    listHasPre_append_self _ _
  simp only [classifyPart, h1, hpre, if_true, Bool.false_eq_true, if_false]
  rw [show (8 : ℕ) = ("website:".data).length from rfl, List.drop_left]

theorem classify_source_part (acc : String × String × String) (s : List Char) :
    classifyPart acc ("source:".data ++ s) = (acc.1, acc.2.1, String.mk s) := by
  have h1 : listHasPre "name:".data ("source:".data ++ s) = false := by
    show listHasPre ('n' :: _) ('s' :: _) = false
    exact listHasPre_ne_head _ _ _ _ (by decide)
  have h2 : listHasPre "website:".data ("source:".data ++ s) = false := by
    show listHasPre ('w' :: _) ('s' :: _) = false
    exact listHasPre_ne_head _ _ _ _ (by decide)
  have hpre : listHasPre "source:".data ("source:".data ++ s) = true :=
    listHasPre_append_self _ _
  simp only [classifyPart, h1, h2, hpre, if_true, Bool.false_eq_true, if_false]
  rw [show (7 : ℕ) = ("source:".data).length from rfl, List.drop_left]

theorem classify_empty_part (acc : String × String × String) :
    classifyPart acc [] = acc := by
  have h1 : listHasPre "name:".data [] = false := rfl
  have h2 : listHasPre "website:".data [] = false := rfl
  have h3 : listHasPre "source:".data [] = false := rfl
  simp [classifyPart, h1, h2, h3]

theorem pipe_not_mem_append (a b : List Char) (ha : '|' ∉ a) (hb : '|' ∉ b) :
    '|' ∉ a ++ b := by
  intro hmem
  rw [List.mem_append] at hmem
  cases hmem with
  | inl h => exact ha h
  | inr h => exact hb h

theorem splitPipe_joinSep (parts : List String)
    (h : ∀ p ∈ parts, '|' ∉ p.data) (hne : parts ≠ []) :
    splitPipe (joinSep "|" parts).data = parts.map String.data := by
  induction parts with
  | nil => exact absurd rfl hne
  | cons x rest ih =>
    cases rest with
    | nil =>
      show splitPipe x.data = [x.data]
      exact splitPipe_noPipe x.data (h x (by simp))
    | cons y rest₂ =>
      have hx : '|' ∉ x.data := h x (by simp)
      have hrest : ∀ p ∈ y :: rest₂, '|' ∉ p.data :=
        fun p hp => h p (by simp [hp])
      show splitPipe ((x ++ "|" ++ joinSep "|" (y :: rest₂)).data) = _
      have hdata : (x ++ "|" ++ joinSep "|" (y :: rest₂)).data =
          x.data ++ '|' :: (joinSep "|" (y :: rest₂)).data := by
        simp [strData_append]
      rw [hdata, splitPipe_sep _ _ hx, ih hrest (by simp)]
      rfl

theorem decode_keyOf (n w s : String) (hn : '|' ∉ n.data)
    (hw : '|' ∉ w.data) (hs : '|' ∉ s.data) :
    decodeKey (keyOf n w s) = (n, w, s) := by
  by_cases Hn : n = "" <;> by_cases Hw : w = "" <;> by_cases Hs : s = ""
  · subst Hn; subst Hw; subst Hs
    rfl
  · subst Hn; subst Hw
    have hk : keyOf "" "" s = joinSep "|" ["source:" ++ s] := by
      simp [keyOf, Hs]
    show decodeKey _ = _
    rw [hk]
    unfold decodeKey
    rw [splitPipe_joinSep ["source:" ++ s]
      (by intro p hp; simp only [List.mem_singleton] at hp; subst hp
          exact pipe_not_mem_append _ _ (by decide) hs) (by simp)]
    simp only [List.map, List.foldl, strData_append]
    rw [classify_source_part]
  · subst Hn; subst Hs
    have hk : keyOf "" w "" = joinSep "|" ["website:" ++ w] := by
      simp [keyOf, Hw]
    rw [hk]
    unfold decodeKey
    rw [splitPipe_joinSep ["website:" ++ w]
      (by intro p hp; simp only [List.mem_singleton] at hp; subst hp
          exact pipe_not_mem_append _ _ (by decide) hw) (by simp)]
    simp only [List.map, List.foldl, strData_append]
    rw [classify_website_part]
  · subst Hn
    have hk : keyOf "" w s = joinSep "|" ["website:" ++ w, "source:" ++ s] := by
      simp [keyOf, Hw, Hs]
    rw [hk]
    unfold decodeKey
    rw [splitPipe_joinSep ["website:" ++ w, "source:" ++ s]
      (by intro p hp
          simp only [List.mem_cons, List.mem_singleton] at hp
          rcases hp with rfl | rfl | h
          · exact pipe_not_mem_append _ _ (by decide) hw
          · exact pipe_not_mem_append _ _ (by decide) hs
          · cases h) (by simp)]
    simp only [List.map, List.foldl, strData_append]
    rw [classify_website_part, classify_source_part]
  · subst Hw; subst Hs
    have hk : keyOf n "" "" = joinSep "|" ["name:" ++ n] := by
      simp [keyOf, Hn]
    rw [hk]
    unfold decodeKey
    rw [splitPipe_joinSep ["name:" ++ n]
      (by intro p hp; simp only [List.mem_singleton] at hp; subst hp
          exact pipe_not_mem_append _ _ (by decide) hn) (by simp)]
    simp only [List.map, List.foldl, strData_append]
    rw [classify_name_part]
  · subst Hw
    have hk : keyOf n "" s = joinSep "|" ["name:" ++ n, "source:" ++ s] := by
      simp [keyOf, Hn, Hs]
    rw [hk]
    unfold decodeKey
    rw [splitPipe_joinSep ["name:" ++ n, "source:" ++ s]
      (by intro p hp
          simp only [List.mem_cons, List.mem_singleton] at hp
          rcases hp with rfl | rfl | h
          · exact pipe_not_mem_append _ _ (by decide) hn
          · exact pipe_not_mem_append _ _ (by decide) hs
          · cases h) (by simp)]
    simp only [List.map, List.foldl, strData_append]
    rw [classify_name_part, classify_source_part]
  · subst Hs
    have hk : keyOf n w "" = joinSep "|" ["name:" ++ n, "website:" ++ w] := by
      simp [keyOf, Hn, Hw]
    rw [hk]
    unfold decodeKey
    rw [splitPipe_joinSep ["name:" ++ n, "website:" ++ w]
      (by intro p hp
          simp only [List.mem_cons, List.mem_singleton] at hp
          rcases hp with rfl | rfl | h
          · exact pipe_not_mem_append _ _ (by decide) hn
          · exact pipe_not_mem_append _ _ (by decide) hw
          · cases h) (by simp)]
    simp only [List.map, List.foldl, strData_append]
    rw [classify_name_part, classify_website_part]
  · have hk : keyOf n w s =
        joinSep "|" ["name:" ++ n, "website:" ++ w, "source:" ++ s] := by
      simp [keyOf, Hn, Hw, Hs]
    rw [hk]
    unfold decodeKey
    rw [splitPipe_joinSep ["name:" ++ n, "website:" ++ w, "source:" ++ s]
      (by intro p hp
          simp only [List.mem_cons, List.mem_singleton] at hp
          rcases hp with rfl | rfl | rfl | h
          · exact pipe_not_mem_append _ _ (by decide) hn
          · exact pipe_not_mem_append _ _ (by decide) hw
          · exact pipe_not_mem_append _ _ (by decide) hs
          · cases h) (by simp)]
    simp only [List.map, List.foldl, strData_append]
    rw [classify_name_part, classify_website_part, classify_source_part]

/-- On pipe-free field values the composite key builder is injective. -/
theorem keyOf_inj (n₁ w₁ s₁ n₂ w₂ s₂ : String)
    (hn₁ : '|' ∉ n₁.data) (hw₁ : '|' ∉ w₁.data) (hs₁ : '|' ∉ s₁.data)
    (hn₂ : '|' ∉ n₂.data) (hw₂ : '|' ∉ w₂.data) (hs₂ : '|' ∉ s₂.data)
    (heq : keyOf n₁ w₁ s₁ = keyOf n₂ w₂ s₂) :
    n₁ = n₂ ∧ w₁ = w₂ ∧ s₁ = s₂ := by
  have h₁ := decode_keyOf n₁ w₁ s₁ hn₁ hw₁ hs₁
  have h₂ := decode_keyOf n₂ w₂ s₂ hn₂ hw₂ hs₂
  rw [heq, h₂] at h₁
  simp only [Prod.mk.injEq] at h₁
  exact ⟨h₁.1.symm, h₁.2.1.symm, h₁.2.2.symm⟩

theorem listHasPre_exists (p l : List Char) (h : listHasPre p l = true) :
    ∃ t, l = p ++ t := by
  induction p generalizing l with
  | nil => exact ⟨l, rfl⟩
  | cons a q ih =>
    cases l with
    | nil => simp [listHasPre] at h
    | cons b t =>
      by_cases hab : a = b
      · subst hab
        obtain ⟨r, hr⟩ := ih t (by simpa [listHasPre] using h)
        exact ⟨r, by rw [hr]; rfl⟩
      · simp [listHasPre, hab] at h

theorem replAll_no_occ (pat rep l : List Char)
    (h : listHasSub pat l = false) : replAll pat rep l = l := by
  induction l with
  | nil => rw [replAll]
  | cons c rest ih =>
    rw [listHasSub, Bool.or_eq_false_iff] at h
    rw [replAll, dif_neg (by simp [h.1]), ih h.2]

theorem replAll_of_pre (pat rep rest : List Char) (hne : pat ≠ []) :
    replAll pat rep (pat ++ rest) = rep ++ replAll pat rep rest := by
  cases pat with
  | nil => exact absurd rfl hne
  | cons a t =>
    rw [List.cons_append, replAll,
      dif_pos ⟨List.cons_ne_nil a t,
        by rw [← List.cons_append]; exact listHasPre_append_self _ _⟩]
    congr 1
    congr 1
    rw [← List.cons_append]
    exact List.drop_left _ _

theorem phoneLoop_none (text : String) (pats : List (String → Option String))
    (h : ∀ p ∈ pats, ∀ m, p text = some m → (cleanPhone m).length < 10) :
    phoneLoop text pats = none := by
  induction pats with
  | nil => rfl
  | cons p ps ih =>
    rw [phoneLoop]
    cases hp : p text with
    | none => exact ih (fun q hq => h q (by simp [hq]))
    | some m =>
      have hlen := h p (by simp) m hp
      simp only [if_neg (by omega : ¬10 ≤ (cleanPhone m).length)]
      exact ih (fun q hq => h q (by simp [hq]))

theorem phoneLoop_first (l₁ l₂ : List (String → Option String))
    (p : String → Option String) (text m : String)
    (h : ∀ q ∈ l₁, ∀ m', q text = some m' → (cleanPhone m').length < 10)
    (hp : p text = some m) (hlen : 10 ≤ (cleanPhone m).length) :
    phoneLoop text (l₁ ++ p :: l₂) = some (pyStrip (cleanPhone m)) := by
  induction l₁ with
  | nil =>
    rw [List.nil_append, phoneLoop, hp]
    simp [hlen]
  | cons q qs ih =>
    rw [List.cons_append, phoneLoop]
    cases hq : q text with
    | none => exact ih (fun q₂ hq₂ => h q₂ (by simp [hq₂]))
    | some m' =>
      have := h q (by simp) m' hq
      simp only [if_neg (by omega : ¬10 ≤ (cleanPhone m').length)]
      exact ih (fun q₂ hq₂ => h q₂ (by simp [hq₂]))

theorem phoneLoop_some (pats : List (String → Option String))
    (text r : String) (h : phoneLoop text pats = some r) :
    ∃ p ∈ pats, ∃ m, p text = some m ∧ r = pyStrip (cleanPhone m) := by
  induction pats with
  | nil => simp [phoneLoop] at h
  | cons p ps ih =>
    rw [phoneLoop] at h
    cases hp : p text with
    | none =>
      rw [hp] at h
      obtain ⟨q, hq, m, hm, hr⟩ := ih h
      exact ⟨q, by simp [hq], m, hm, hr⟩
    | some m =>
      rw [hp] at h
      have h' : (if 10 ≤ (cleanPhone m).length then
          some (pyStrip (cleanPhone m)) else phoneLoop text ps) = some r := h
      by_cases hlen : 10 ≤ (cleanPhone m).length
      · rw [if_pos hlen] at h'
        exact ⟨p, by simp, m, hp, (Option.some.injEq _ _ ▸ h').symm⟩
      · rw [if_neg hlen] at h'
        obtain ⟨q, hq, m₂, hm₂, hr⟩ := ih h'
        exact ⟨q, by simp [hq], m₂, hm₂, hr⟩

theorem pyStrip_chars (s : String) (c : Char) (h : c ∈ (pyStrip s).data) :
    c ∈ s.data := by
  simp only [pyStrip] at h
  rw [List.mem_reverse] at h
  have h₂ := (List.dropWhile_sublist isPyWs).mem h
  rw [List.mem_reverse] at h₂
  exact (List.dropWhile_sublist isPyWs).mem h₂

theorem if_empty_self (x : String) : (if x = "" then "" else x) = x := by
  split_ifs with h
  · exact h.symm
  · rfl

theorem pre_slash_of_dslash (url : String) (h : strHasPre "//" url = true) :
    strHasPre "/" url = true := by
  obtain ⟨t, ht⟩ := listHasPre_exists "//".data url.data h
  show listHasPre "/".data url.data = true
  rw [ht, show ("//".data : List Char) ++ t = '/' :: ('/' :: t) from rfl]
  rfl

theorem url_head_facts (url : String) (c : Char) (rest : List Char)
    (h : url.data = c :: rest) (hc : c ≠ '/') :
    url ≠ "" ∧ strHasPre "//" url = false ∧ strHasPre "/" url = false := by
  refine ⟨?_, ?_, ?_⟩
  · intro he
    rw [he] at h
    exact absurd h (by simp)
  · show listHasPre "//".data url.data = false
    rw [h, show ("//".data : List Char) = '/' :: ['/'] from rfl]
    exact listHasPre_ne_head _ _ _ _ (Ne.symm hc)
  · show listHasPre "/".data url.data = false
    rw [h, show ("/".data : List Char) = '/' :: [] from rfl]
    exact listHasPre_ne_head _ _ _ _ (Ne.symm hc)

theorem is_dup_load (l : List Company) (cf : Option (List Company))
    (r : Company) (hr : r ∈ l) :
    is_duplicate_company (load_existing_data (some l) cf) r = true := by
  show strMem (generate_company_key r) (l.map generate_company_key) = true
  rw [strMem_iff_mem]
  exact List.mem_map_of_mem _ hr

theorem catFold (urls : List String) (acc : CatAcc) :
    urls.foldl catStep acc =
      ⟨(if acc.facebook = "" then (urls.find? isFbB).getD "" else acc.facebook),
       (if acc.instagram = "" then (urls.find? isIgB).getD "" else acc.instagram),
       (if acc.linkedin = "" then (urls.find? isLiB).getD "" else acc.linkedin),
       (if acc.twitter = "" then (urls.find? isTwB).getD "" else acc.twitter),
       acc.others ++ urls.filter isOtherB⟩ := by
  induction urls generalizing acc with
  | nil => simp [if_empty_self]
  | cons u rest ih =>
    by_cases hu : u = ""
    · subst hu
      have f1 : (("" :: rest).find? isFbB) = rest.find? isFbB :=
        List.find?_cons_of_neg _ (by simp [isFbB])
      have f2 : (("" :: rest).find? isIgB) = rest.find? isIgB :=
        List.find?_cons_of_neg _ (by simp [isIgB])
      have f3 : (("" :: rest).find? isLiB) = rest.find? isLiB :=
        List.find?_cons_of_neg _ (by simp [isLiB])
      have f4 : (("" :: rest).find? isTwB) = rest.find? isTwB :=
        List.find?_cons_of_neg _ (by simp [isTwB])
      have f5 : ("" :: rest).filter isOtherB = rest.filter isOtherB := by
        simp [List.filter_cons, isOtherB]
      rw [List.foldl_cons, show catStep acc "" = acc from rfl, ih acc,
        f1, f2, f3, f4, f5]
    · by_cases hfb : matchesAny (pyLower u) fbPlats
      · have pf : isFbB u = true := by simp [isFbB, hu, hfb]
        have f1 : ((u :: rest).find? isFbB) = some u :=
          List.find?_cons_of_pos _ pf
        have f2 : ((u :: rest).find? isIgB) = rest.find? isIgB :=
          List.find?_cons_of_neg _ (by simp [isIgB, hu, hfb])
        have f3 : ((u :: rest).find? isLiB) = rest.find? isLiB :=
          List.find?_cons_of_neg _ (by simp [isLiB, hu, hfb])
        have f4 : ((u :: rest).find? isTwB) = rest.find? isTwB :=
          List.find?_cons_of_neg _ (by simp [isTwB, hu, hfb])
        have f5 : (u :: rest).filter isOtherB = rest.filter isOtherB := by
          simp [List.filter_cons, isOtherB, hu, hfb]
        have hstep : catStep acc u =
            if acc.facebook = "" then { acc with facebook := u } else acc := by
          simp [catStep, hu, hfb]
        by_cases hf : acc.facebook = ""
        · rw [List.foldl_cons, hstep, if_pos hf, ih]
          simp [hu, hf, f1, f2, f3, f4, f5]
        · rw [List.foldl_cons, hstep, if_neg hf, ih]
          simp [hf, f1, f2, f3, f4, f5]
      · by_cases hig : matchesAny (pyLower u) igPlats
        · have pg : isIgB u = true := by simp [isIgB, hu, hfb, hig]
          have f1 : ((u :: rest).find? isFbB) = rest.find? isFbB :=
            List.find?_cons_of_neg _ (by simp [isFbB, hu, hfb])
          have f2 : ((u :: rest).find? isIgB) = some u :=
            List.find?_cons_of_pos _ pg
          have f3 : ((u :: rest).find? isLiB) = rest.find? isLiB :=
            List.find?_cons_of_neg _ (by simp [isLiB, hu, hfb, hig])
          have f4 : ((u :: rest).find? isTwB) = rest.find? isTwB :=
            List.find?_cons_of_neg _ (by simp [isTwB, hu, hfb, hig])
          have f5 : (u :: rest).filter isOtherB = rest.filter isOtherB := by
            simp [List.filter_cons, isOtherB, hu, hfb, hig]
          have hstep : catStep acc u =
              if acc.instagram = "" then { acc with instagram := u } else acc := by
            simp [catStep, hu, hfb, hig]
          by_cases hf : acc.instagram = ""
          · rw [List.foldl_cons, hstep, if_pos hf, ih]
            simp [hu, hf, f1, f2, f3, f4, f5]
          · rw [List.foldl_cons, hstep, if_neg hf, ih]
            simp [hf, f1, f2, f3, f4, f5]
        · by_cases hli : matchesAny (pyLower u) liPlats
          · have pl : isLiB u = true := by simp [isLiB, hu, hfb, hig, hli]
            have f1 : ((u :: rest).find? isFbB) = rest.find? isFbB :=
              List.find?_cons_of_neg _ (by simp [isFbB, hu, hfb])
            have f2 : ((u :: rest).find? isIgB) = rest.find? isIgB :=
              List.find?_cons_of_neg _ (by simp [isIgB, hu, hfb, hig])
            have f3 : ((u :: rest).find? isLiB) = some u :=
              List.find?_cons_of_pos _ pl
            have f4 : ((u :: rest).find? isTwB) = rest.find? isTwB :=
              List.find?_cons_of_neg _ (by simp [isTwB, hu, hfb, hig, hli])
            have f5 : (u :: rest).filter isOtherB = rest.filter isOtherB := by
              simp [List.filter_cons, isOtherB, hu, hfb, hig, hli]
            have hstep : catStep acc u =
                if acc.linkedin = "" then { acc with linkedin := u } else acc := by
              simp [catStep, hu, hfb, hig, hli]
            by_cases hf : acc.linkedin = ""
            · rw [List.foldl_cons, hstep, if_pos hf, ih]
              simp [hu, hf, f1, f2, f3, f4, f5]
            · rw [List.foldl_cons, hstep, if_neg hf, ih]
              simp [hf, f1, f2, f3, f4, f5]
          · by_cases htw : matchesAny (pyLower u) twPlats
            · have pt : isTwB u = true := by
                simp [isTwB, hu, hfb, hig, hli, htw]
              have f1 : ((u :: rest).find? isFbB) = rest.find? isFbB :=
                List.find?_cons_of_neg _ (by simp [isFbB, hu, hfb])
              have f2 : ((u :: rest).find? isIgB) = rest.find? isIgB :=
                List.find?_cons_of_neg _ (by simp [isIgB, hu, hfb, hig])
              have f3 : ((u :: rest).find? isLiB) = rest.find? isLiB :=
                List.find?_cons_of_neg _ (by simp [isLiB, hu, hfb, hig, hli])
              have f4 : ((u :: rest).find? isTwB) = some u :=
                List.find?_cons_of_pos _ pt
              have f5 : (u :: rest).filter isOtherB = rest.filter isOtherB := by
                simp [List.filter_cons, isOtherB, hu, hfb, hig, hli, htw]
              have hstep : catStep acc u =
                  if acc.twitter = "" then { acc with twitter := u } else acc := by
                simp [catStep, hu, hfb, hig, hli, htw]
              by_cases hf : acc.twitter = ""
              · rw [List.foldl_cons, hstep, if_pos hf, ih]
                simp [hu, hf, f1, f2, f3, f4, f5]
              · rw [List.foldl_cons, hstep, if_neg hf, ih]
                simp [hf, f1, f2, f3, f4, f5]
            · have po : isOtherB u = true := by
                simp [isOtherB, hu, hfb, hig, hli, htw]
              have f1 : ((u :: rest).find? isFbB) = rest.find? isFbB :=
                List.find?_cons_of_neg _ (by simp [isFbB, hu, hfb])
              have f2 : ((u :: rest).find? isIgB) = rest.find? isIgB :=
                List.find?_cons_of_neg _ (by simp [isIgB, hu, hfb, hig])
              have f3 : ((u :: rest).find? isLiB) = rest.find? isLiB :=
                List.find?_cons_of_neg _ (by simp [isLiB, hu, hfb, hig, hli])
              have f4 : ((u :: rest).find? isTwB) = rest.find? isTwB :=
                List.find?_cons_of_neg _
                  (by simp [isTwB, hu, hfb, hig, hli, htw])
              have f5 : (u :: rest).filter isOtherB =
                  u :: rest.filter isOtherB := by
                simp [List.filter_cons, po]
              have hstep : catStep acc u =
                  { acc with others := acc.others ++ [u] } := by
                simp [catStep, hu, hfb, hig, hli, htw]
              rw [List.foldl_cons, hstep, ih]
              simp [f1, f2, f3, f4, f5]

theorem replAll_cons_neg (pat rep : List Char) (c : Char) (rest : List Char)
    (h : listHasPre pat (c :: rest) = false) :
    replAll pat rep (c :: rest) = c :: replAll pat rep rest := by
  rw [replAll, dif_neg (by simp [h])]

theorem replAll_dot_map (l : List Char) :
    replAll ".".data "_".data l =
      l.map (fun c => if c = '.' then '_' else c) := by
  induction l with
  | nil => rw [replAll]; rfl
  | cons c rest ih =>
    by_cases hc : c = '.'
    · subst hc
      rw [replAll,
        dif_pos ⟨by decide,
          by rw [show (".".data : List Char) = ['.'] from rfl]
             simp [listHasPre]⟩]
      simp only [List.map_cons, if_pos rfl]
      rw [show (('.' :: rest).drop (".".data).length) = rest from rfl, ih]
      rfl
    · rw [replAll,
        dif_neg (fun hcond => by
          rw [show (".".data : List Char) = ['.'] from rfl] at hcond
          simp [listHasPre, Ne.symm hc] at hcond), ih]
      simp [hc]

/-- If every record of a batch is already a duplicate, submitting the
batch leaves the state untouched. -/
theorem run_save_all_dup (s : ScraperState) (cs : List Company)
    (h : ∀ r ∈ cs, is_duplicate_company s r = true) :
    run_save s cs = s := by
  induction cs with
  | nil => rfl
  | cons c rest ih =>
    have hc : is_duplicate_company s c = true := h c (by simp)
    show run_save ((save_company_immediately s c).1) rest = s
    rw [save_dup_eq s c hc]
    exact ih (fun r hr => h r (by simp [hr]))

/-- C1 (amended): two candidates whose trimmed, case-folded `name`,
`website_url` and `source_url` are all equal and non-empty collide —
after the first is submitted, `_is_duplicate_company` holds of the
second; and when any of the three normalized fields differs, the second
is not flagged as a duplicate of the first, provided none of the
normalized field values contains the key separator `|` (with a `|` in a
field, distinct field triples can produce the same composite key). -/
theorem C1_composite_dedup_key :
    (∀ (s : ScraperState) (r₁ r₂ : Company),
      normField r₁.name = normField r₂.name →
      normField r₁.website_url = normField r₂.website_url →
      normField r₁.source_url = normField r₂.source_url →
      normField r₁.name ≠ "" → normField r₁.website_url ≠ "" →
      normField r₁.source_url ≠ "" →
      is_duplicate_company ((save_company_immediately s r₁).1) r₂ = true) ∧
    (∀ r₁ r₂ : Company,
      '|' ∉ (normField r₁.name).data → '|' ∉ (normField r₁.website_url).data →
      '|' ∉ (normField r₁.source_url).data →
      '|' ∉ (normField r₂.name).data → '|' ∉ (normField r₂.website_url).data →
      '|' ∉ (normField r₂.source_url).data →
      (normField r₁.name ≠ normField r₂.name ∨
       normField r₁.website_url ≠ normField r₂.website_url ∨
       normField r₁.source_url ≠ normField r₂.source_url) →
      is_duplicate_company ((save_company_immediately initialState r₁).1) r₂ =
        false) := by
  constructor
  · intro s r₁ r₂ h₁ h₂ h₃ _ _ _
    have hkey : generate_company_key r₂ = generate_company_key r₁ := by
      unfold generate_company_key
      rw [h₁, h₂, h₃]
    show strMem (generate_company_key r₂) _ = true
    rw [hkey]
    exact key_mem_after_save s r₁
  · intro r₁ r₂ hn₁ hw₁ hs₁ hn₂ hw₂ hs₂ hdiff
    have hne : generate_company_key r₁ ≠ generate_company_key r₂ := by
      intro he
      obtain ⟨e₁, e₂, e₃⟩ :=
        keyOf_inj _ _ _ _ _ _ hn₁ hw₁ hs₁ hn₂ hw₂ hs₂ he
      rcases hdiff with hd | hd | hd
      · exact hd e₁
      · exact hd e₂
      · exact hd e₃
    rw [save_accept initialState r₁ rfl]
    simp [is_duplicate_company, initialState, load_existing_data, strMem, hne]

/-- C1 counterexample: the claim's negative half is false as stated —
these two records differ in every identity field, yet a `|` inside a
field value makes their composite keys collide, so the second is
flagged as a duplicate of the first. -/
theorem C1_counterexample :
    normField (⟨some "a|website:b", some "x", some "s", none, []⟩ : Company).name ≠
      normField (⟨some "a", some "b|website:x", some "s", none, []⟩ : Company).name ∧
    normField (⟨some "a|website:b", some "x", some "s", none, []⟩ : Company).source_url =
      normField (⟨some "a", some "b|website:x", some "s", none, []⟩ : Company).source_url ∧
    is_duplicate_company
      ((save_company_immediately initialState
        ⟨some "a|website:b", some "x", some "s", none, []⟩).1)
      ⟨some "a", some "b|website:x", some "s", none, []⟩ = true := by
  decide

/-- C1 witness: both halves of the amended claim at concrete records
sharing the source URL. -/
theorem C1_composite_dedup_key_witness :
    is_duplicate_company
      ((save_company_immediately initialState
        ⟨some " Acme ", some "https://a.com", some "https://x/1", none, []⟩).1)
      ⟨some "acme", some "HTTPS://A.COM", some "https://x/1", none, []⟩ = true ∧
    is_duplicate_company
      ((save_company_immediately initialState
        ⟨some "Acme", some "https://a.com", some "https://x/1", none, []⟩).1)
      ⟨some "Beta", some "https://b.com", some "https://x/1", none, []⟩ =
        false := by
  constructor
  · exact C1_composite_dedup_key.1 initialState _ _ (by decide) (by decide)
      (by decide) (by decide) (by decide) (by decide)
  · exact C1_composite_dedup_key.2 _ _ (by decide) (by decide) (by decide)
      (by decide) (by decide) (by decide) (Or.inl (by decide))

/-- C4: a record flagged as a duplicate is rejected with `False` and
nothing changes — not the in-memory list, not the key set, not the
document file, not the columnar file. -/
theorem C4_duplicate_rejection_noop (s : ScraperState) (c : Company)
    (h : is_duplicate_company s c = true) :
    save_company_immediately s c = (s, false) ∧
    ((save_company_immediately s c).1).companies_data = s.companies_data ∧
    ((save_company_immediately s c).1).processed_companies =
      s.processed_companies ∧
    ((save_company_immediately s c).1).jsonFile = s.jsonFile ∧
    ((save_company_immediately s c).1).csvFile = s.csvFile := by
  rw [save_dup_eq s c h]
  exact ⟨rfl, rfl, rfl, rfl, rfl⟩

/-- C4 witness: rejecting a concrete duplicate is a no-op. -/
theorem C4_duplicate_rejection_noop_witness :
    save_company_immediately
      ((save_company_immediately initialState
        ⟨some "A", none, some "s", none, []⟩).1)
      ⟨some "A", none, some "s", none, []⟩ =
    ((save_company_immediately initialState
        ⟨some "A", none, some "s", none, []⟩).1, false) :=
  (C4_duplicate_rejection_noop _ _ (by decide)).1

/-- C5 counterexample: two distinct records whose three identity fields
are all empty after trimming both receive the empty-string key — not a
run-unique key — so the second is treated as a duplicate of the
first, contradicting the claim. -/
theorem C5_counterexample :
    (⟨none, none, none, none, []⟩ : Company) ≠
      ⟨some "", some "  ", none, none, []⟩ ∧
    generate_company_key (⟨none, none, none, none, []⟩ : Company) = "" ∧
    generate_company_key (⟨some "", some "  ", none, none, []⟩ : Company) = "" ∧
    is_duplicate_company
      ((save_company_immediately initialState ⟨none, none, none, none, []⟩).1)
      ⟨some "", some "  ", none, none, []⟩ = true := by
  decide

/-- C5 (amended): a record whose `name`, `website_url` and `source_url`
are all empty after trimming gets the empty string as its dedup key —
the same key for every such record — so once one all-empty record has
been submitted, every further all-empty record is treated as its
duplicate. -/
theorem C5_empty_key_amended (r : Company)
    (h₁ : normField r.name = "") (h₂ : normField r.website_url = "")
    (h₃ : normField r.source_url = "") :
    generate_company_key r = "" ∧
    ∀ (s : ScraperState) (r₂ : Company),
      normField r₂.name = "" → normField r₂.website_url = "" →
      normField r₂.source_url = "" →
      is_duplicate_company ((save_company_immediately s r).1) r₂ = true := by
  have hk : generate_company_key r = "" := by
    unfold generate_company_key
    rw [h₁, h₂, h₃]
    decide
  refine ⟨hk, ?_⟩
  intro s r₂ g₁ g₂ g₃
  have hk₂ : generate_company_key r₂ = generate_company_key r := by
    unfold generate_company_key
    rw [g₁, g₂, g₃, h₁, h₂, h₃]
  show strMem (generate_company_key r₂) _ = true
  rw [hk₂]
  exact key_mem_after_save s r

/-- C5 witness: the amended claim at two concrete all-empty records. -/
theorem C5_empty_key_witness :
    generate_company_key (⟨none, none, none, none, []⟩ : Company) = "" ∧
    is_duplicate_company
      ((save_company_immediately initialState ⟨none, none, none, none, []⟩).1)
      ⟨some "", some "  ", none, none, []⟩ = true := by
  have h := C5_empty_key_amended ⟨none, none, none, none, []⟩ (by decide)
    (by decide) (by decide)
  exact ⟨h.1, h.2 initialState _ (by decide) (by decide) (by decide)⟩

/-- C2: rebuild the session from the document file alone (as
`_load_existing_data` does) after any run; re-submitting every
previously accepted record is rejected, the state is left unchanged by
the whole re-submission, and the loaded record list is exactly the
single-run result. -/
theorem C2_idempotent_resume (cs : List Company) :
    (∀ r ∈ (run_save initialState cs).companies_data,
      save_company_immediately
        (load_existing_data (some ((run_save initialState cs).companies_data))
          ((run_save initialState cs).csvFile)) r =
        (load_existing_data (some ((run_save initialState cs).companies_data))
          ((run_save initialState cs).csvFile), false)) ∧
    run_save
      (load_existing_data (some ((run_save initialState cs).companies_data))
        ((run_save initialState cs).csvFile))
      ((run_save initialState cs).companies_data) =
      load_existing_data (some ((run_save initialState cs).companies_data))
        ((run_save initialState cs).csvFile) ∧
    (load_existing_data (some ((run_save initialState cs).companies_data))
      ((run_save initialState cs).csvFile)).companies_data =
      (run_save initialState cs).companies_data := by
  refine ⟨?_, ?_, rfl⟩
  · intro r hr
    exact save_dup_eq _ r (is_dup_load _ _ r hr)
  · exact run_save_all_dup _ _ (fun r hr => is_dup_load _ _ r hr)

/-- C2 witness: after a one-record run, re-submitting the stored record
to the reloaded session is rejected without mutation. -/
theorem C2_idempotent_resume_witness :
    save_company_immediately
      (load_existing_data
        (some ((run_save initialState
          [⟨some "A", none, some "s", none, []⟩]).companies_data))
        ((run_save initialState
          [⟨some "A", none, some "s", none, []⟩]).csvFile))
      ⟨some "A", none, some "s", some 1, []⟩ =
    (load_existing_data
      (some ((run_save initialState
        [⟨some "A", none, some "s", none, []⟩]).companies_data))
      ((run_save initialState
        [⟨some "A", none, some "s", none, []⟩]).csvFile), false) :=
  (C2_idempotent_resume [⟨some "A", none, some "s", none, []⟩]).1 _ (by decide)

/-- C3: starting from an empty store, the stored `company_index` values
always form the dense sequence `1..N` in acceptance order; and a record
rejected as a duplicate consumes no index — the next submission behaves
exactly as if the duplicate had never been offered. -/
theorem C3_sequential_dense_indices :
    (∀ cs : List Company,
      (run_save initialState cs).companies_data.map Company.company_index =
        (List.range (run_save initialState cs).companies_data.length).map
          (fun i => some (i + 1))) ∧
    (∀ (s : ScraperState) (c c₂ : Company), is_duplicate_company s c = true →
      save_company_immediately ((save_company_immediately s c).1) c₂ =
        save_company_immediately s c₂) := by
  constructor
  · intro cs
    exact idxOk_run initialState cs idxOk_initial
  · intro s c c₂ h
    rw [save_dup_eq s c h]

/-- C3 witness: a concrete duplicate consumes no index — the record
accepted right after it gets the same state transition it would have
got without the duplicate. -/
theorem C3_sequential_dense_indices_witness :
    save_company_immediately
      ((save_company_immediately
        ((save_company_immediately initialState
          ⟨some "A", none, some "s", none, []⟩).1)
        ⟨some "A", none, some "s", none, []⟩).1)
      ⟨some "B", none, some "s", none, []⟩ =
    save_company_immediately
      ((save_company_immediately initialState
        ⟨some "A", none, some "s", none, []⟩).1)
      ⟨some "B", none, some "s", none, []⟩ :=
  C3_sequential_dense_indices.2 _ _ _ (by decide)

/-- C10: when the file write raises for a non-duplicate record, the
call reports `False`, yet the record's key stays in the dedup set, the
record stays in the in-memory list with its assigned index, the files
are untouched — and the next successful accept writes the failed record
into the document file and hands out the next index after the one the
failed record consumed. -/
theorem C10_persistence_failure_not_rolled_back (s : ScraperState)
    (c c₂ : Company) (h : is_duplicate_company s c = false)
    (h₂ : is_duplicate_company ((save_company_fallible s c true).1) c₂ = false) :
    (save_company_fallible s c true).2 = false ∧
    strMem (generate_company_key c)
      ((save_company_fallible s c true).1).processed_companies = true ∧
    ((save_company_fallible s c true).1).companies_data =
      s.companies_data ++
        [{ c with company_index := some (s.companies_data.length + 1) }] ∧
    ((save_company_fallible s c true).1).jsonFile = s.jsonFile ∧
    ((save_company_fallible s c true).1).csvFile = s.csvFile ∧
    (save_company_fallible ((save_company_fallible s c true).1) c₂ false).2 =
      true ∧
    (save_company_fallible ((save_company_fallible s c true).1) c₂ false).1.jsonFile =
      some (s.companies_data ++
        [{ c with company_index := some (s.companies_data.length + 1) }] ++
        [{ c₂ with company_index := some (s.companies_data.length + 2) }]) ∧
    { c with company_index := some (s.companies_data.length + 1) } ∈
      ((save_company_fallible ((save_company_fallible s c true).1) c₂
        false).1).jsonFile.getD [] := by
  have hfail : save_company_fallible s c true =
      ({ s with
          companies_data := s.companies_data ++
            [{ c with company_index := some (s.companies_data.length + 1) }],
          processed_companies :=
            s.processed_companies ++ [generate_company_key c] }, false) := by
    simp [save_company_fallible, h, key_update_index]
  have hok : save_company_fallible ((save_company_fallible s c true).1) c₂
      false =
      ({ companies_data :=
           (s.companies_data ++
             [{ c with company_index := some (s.companies_data.length + 1) }]) ++
             [{ c₂ with company_index := some (s.companies_data.length + 2) }],
         processed_companies :=
           (s.processed_companies ++ [generate_company_key c]) ++
             [generate_company_key c₂],
         jsonFile :=
           some ((s.companies_data ++
             [{ c with company_index := some (s.companies_data.length + 1) }]) ++
             [{ c₂ with company_index := some (s.companies_data.length + 2) }]),
         csvFile :=
           some ((s.csvFile.getD []) ++
             [{ c₂ with company_index := some (s.companies_data.length + 2) }]) },
       true) := by
    rw [hfail] at h₂ ⊢
    simp [save_company_fallible, h₂, key_update_index, List.length_append]
  refine ⟨by rw [hfail], ?_, by rw [hfail], by rw [hfail], by rw [hfail],
    by rw [hok], ?_, ?_⟩
  · rw [hfail]
    simp [strMem_append, strMem]
  · rw [hok, List.append_assoc]
  · rw [hok]
    simp

/-- C10 witness: a concrete failed write leaves the key and the indexed
record behind, and the next successful accept persists the failed
record. -/
theorem C10_persistence_failure_witness :
    strMem
      (generate_company_key (⟨some "A", none, some "s", none, []⟩ : Company))
      ((save_company_fallible initialState
        ⟨some "A", none, some "s", none, []⟩ true).1).processed_companies =
      true ∧
    (⟨some "A", none, some "s", some 1, []⟩ : Company) ∈
      ((save_company_fallible
        ((save_company_fallible initialState
          ⟨some "A", none, some "s", none, []⟩ true).1)
        ⟨some "B", none, some "s", none, []⟩ false).1).jsonFile.getD [] := by
  have h := C10_persistence_failure_not_rolled_back initialState
    ⟨some "A", none, some "s", none, []⟩ ⟨some "B", none, some "s", none, []⟩
    (by decide) (by decide)
  exact ⟨h.2.1, h.2.2.2.2.2.2.2⟩

/-- C6: the normalization cascade of `normalize_url` — empty input maps
to `None`; `//…` gets `https:` prepended; `/…` resolves against the
base; input without an http(s) scheme that contains a dot and does not
start with one is a bare domain and gets `https://` prepended (before
generic relative resolution); other scheme-less input resolves against
the base; an already absolute URL is returned unchanged — together with
the three documented examples. -/
theorem C6_normalize_url_cascade :
    (∀ base url : String, url = "" → normalize_url base url = none) ∧
    (∀ base url : String, url ≠ "" → strHasPre "//" url = true →
      normalize_url base url = some ("https:" ++ url)) ∧
    (∀ base url : String, url ≠ "" → strHasPre "//" url = false →
      strHasPre "/" url = true →
      normalize_url base url = some (urljoin base url)) ∧
    (∀ base url : String, url ≠ "" → strHasPre "/" url = false →
      strHasPre "http://" url = false → strHasPre "https://" url = false →
      containsSub url "." = true → strHasPre "." url = false →
      normalize_url base url = some ("https://" ++ url)) ∧
    (∀ base url : String, url ≠ "" → strHasPre "/" url = false →
      strHasPre "http://" url = false → strHasPre "https://" url = false →
      (containsSub url "." = false ∨ strHasPre "." url = true) →
      normalize_url base url = some (urljoin base url)) ∧
    (∀ base url : String,
      strHasPre "http://" url = true ∨ strHasPre "https://" url = true →
      normalize_url base url = some url) ∧
    normalize_url "https://site.com" "//cdn.example.com/a.png" =
      some "https://cdn.example.com/a.png" ∧
    normalize_url "https://site.com" "/about" = some "https://site.com/about" ∧
    normalize_url "https://site.com" "example.com/x" =
      some "https://example.com/x" := by
  have hdd : ∀ url : String, strHasPre "/" url = false →
      strHasPre "//" url = false := by
    intro url hs
    cases hb : strHasPre "//" url with
    | false => rfl
    | true => rw [pre_slash_of_dslash url hb] at hs; cases hs
  refine ⟨?_, ?_, ?_, ?_, ?_, ?_, by decide, by decide, by decide⟩
  · intro base url h
    simp [normalize_url, h]
  · intro base url h₁ h₂
    simp [normalize_url, h₁, h₂]
  · intro base url h₁ h₂ h₃
    simp [normalize_url, h₁, h₂, h₃]
  · intro base url h₁ hs hh hhs hdot hd
    simp [normalize_url, h₁, hdd url hs, hs, hh, hhs, hdot, hd]
  · intro base url h₁ hs hh hhs hor
    rcases hor with hc | hc <;>
      simp [normalize_url, h₁, hdd url hs, hs, hh, hhs, hc]
  · intro base url h
    rcases h with h | h
    · obtain ⟨t, ht⟩ := listHasPre_exists "http://".data url.data h
      have hd : url.data = 'h' :: ("ttp://".data ++ t) := by rw [ht]; rfl
      obtain ⟨hne, h₂, h₃⟩ := url_head_facts url 'h' _ hd (by decide)
      simp [normalize_url, hne, h₂, h₃, h]
    · obtain ⟨t, ht⟩ := listHasPre_exists "https://".data url.data h
      have hd : url.data = 'h' :: ("ttps://".data ++ t) := by rw [ht]; rfl
      obtain ⟨hne, h₂, h₃⟩ := url_head_facts url 'h' _ hd (by decide)
      simp [normalize_url, hne, h₂, h₃, h]

/-- C6 witness: the bare-domain branch at a concrete scheme-less,
dotted input. -/
theorem C6_normalize_url_witness :
    normalize_url "https://site.com" "example.com/x" =
      some ("https://" ++ "example.com/x") :=
  C6_normalize_url_cascade.2.2.2.1 "https://site.com" "example.com/x"
    (by decide) (by decide) (by decide) (by decide) (by decide) (by decide)

/-- C7: `extract_phone_from_text` scans the patterns in order; a match
whose cleaned form is shorter than 10 characters is rejected and the
scan falls through to the next pattern; when no pattern produces an
acceptably long cleaned match the result is `None`; otherwise the
result is the first acceptable match cleaned down to digits, `+`, `-`,
whitespace and parentheses (and stripped). -/
theorem C7_phone_min_length :
    (∀ (pats : List (String → Option String)) (text : String), text ≠ "" →
      (∀ p ∈ pats, ∀ m, p text = some m → (cleanPhone m).length < 10) →
      extract_phone_from_text pats text = none) ∧
    (∀ (l₁ l₂ : List (String → Option String)) (p : String → Option String)
        (text m : String), text ≠ "" →
      (∀ q ∈ l₁, ∀ m', q text = some m' → (cleanPhone m').length < 10) →
      p text = some m → 10 ≤ (cleanPhone m).length →
      extract_phone_from_text (l₁ ++ p :: l₂) text =
        some (pyStrip (cleanPhone m))) ∧
    (∀ (pats : List (String → Option String)) (p : String → Option String)
        (text m : String), p text = some m → (cleanPhone m).length < 10 →
      extract_phone_from_text (p :: pats) text =
        extract_phone_from_text pats text) ∧
    (∀ (pats : List (String → Option String)) (text r : String),
      extract_phone_from_text pats text = some r →
      ∀ c ∈ r.data, isPhoneChar c = true) := by
  refine ⟨?_, ?_, ?_, ?_⟩
  · intro pats text ht h
    simp only [extract_phone_from_text, if_neg ht]
    exact phoneLoop_none text pats h
  · intro l₁ l₂ p text m ht h hp hlen
    simp only [extract_phone_from_text, if_neg ht]
    exact phoneLoop_first l₁ l₂ p text m h hp hlen
  · intro pats p text m hp hlen
    by_cases ht : text = ""
    · simp [extract_phone_from_text, ht]
    · simp only [extract_phone_from_text, if_neg ht]
      rw [phoneLoop, hp]
      show (if 10 ≤ (cleanPhone m).length then some (pyStrip (cleanPhone m))
        else phoneLoop text pats) = phoneLoop text pats
      rw [if_neg (by omega)]
  · intro pats text r h c hc
    by_cases ht : text = ""
    · rw [extract_phone_from_text, if_pos ht] at h
      cases h
    · rw [extract_phone_from_text, if_neg ht] at h
      obtain ⟨p, _, m, _, hr⟩ := phoneLoop_some pats text r h
      rw [hr] at hc
      have hm := pyStrip_chars (cleanPhone m) c hc
      exact (List.mem_filter.mp hm).2

/-- C7 witness: a first pattern whose match cleans to fewer than 10
characters is skipped and the second pattern's acceptable match is
returned cleaned. -/
theorem C7_phone_min_length_witness :
    extract_phone_from_text
      [fun _ => some "12-345", fun _ => some "+1 (234) 567-8901"]
      "call us" = some "+1 (234) 567-8901" := by
  have h := C7_phone_min_length.2.1 [fun _ => some "12-345"] []
    (fun _ => some "+1 (234) 567-8901") "call us" "+1 (234) 567-8901"
    (by decide)
    (by intro q hq m' hm'
        simp only [List.mem_singleton] at hq
        subst hq
        have he : ("12-345" : String) = m' := Option.some.inj hm'
        rw [← he]
        decide)
    rfl (by decide)
  rw [show pyStrip (cleanPhone "+1 (234) 567-8901") = "+1 (234) 567-8901"
    from by decide] at h
  exact h

/-- C8: categorization tests every URL in the fixed priority order
facebook, instagram, linkedin, twitter/X; each named slot keeps only
the first URL of its family, and everything matching no family is
joined, in encounter order, into `other_socials` — plus the documented
concrete example, where the second facebook URL is dropped. -/
theorem C8_social_categorization :
    (∀ urls : List String,
      categorize_social_media (some urls) = catSpec urls) ∧
    categorize_social_media
      (some ["https://facebook.com/a", "https://instagram.com/b",
             "https://facebook.com/c", "https://foo.bar/d"]) =
      ⟨"https://facebook.com/a", "https://instagram.com/b", "", "",
        "https://foo.bar/d"⟩ := by
  constructor
  · intro urls
    cases urls with
    | nil => rfl
    | cons u rest =>
      show (let acc := (u :: rest).foldl catStep ⟨"", "", "", "", []⟩
        (⟨acc.facebook, acc.instagram, acc.linkedin, acc.twitter,
          joinSep " | " acc.others⟩ : SocialCategories)) = catSpec (u :: rest)
      rw [catFold]
      simp [catSpec]
  · decide

/-- C9 counterexample: `__init__` removes every occurrence of `www.`
from the domain, not only a leading one — the claim's leading-only slug
disagrees with the computed filenames on a domain with an interior
`www.` label. -/
theorem C9_counterexample :
    csvFilename "https://en.www.example.com/list" =
      "en_example_com_companies.csv" ∧
    jsonFilename "https://en.www.example.com/list" =
      "en_example_com_companies.json" ∧
    claimSlug (urlNetloc "https://en.www.example.com/list") =
      "en_www_example_com" ∧
    csvFilename "https://en.www.example.com/list" ≠
      claimSlug (urlNetloc "https://en.www.example.com/list") ++
        "_companies.csv" := by
  have hwww : replAll "www.".data "".data "en.www.example.com".data =
      "en.example.com".data := by
    rw [show "en.www.example.com".data =
      'e' :: ('n' :: ('.' :: ("www.".data ++ "example.com".data))) from rfl]
    rw [replAll_cons_neg _ _ _ _ (by decide),
      replAll_cons_neg _ _ _ _ (by decide),
      replAll_cons_neg _ _ _ _ (by decide),
      replAll_of_pre _ _ _ (by decide),
      replAll_no_occ _ _ _ (by decide)]
    rfl
  have hdom : scraperDomain "https://en.www.example.com/list" =
      "en_example_com" := by
    unfold scraperDomain
    rw [show urlNetloc "https://en.www.example.com/list" =
      "en.www.example.com" from by decide]
    rw [hwww, replAll_dot_map]
    decide
  refine ⟨?_, ?_, by decide, ?_⟩
  · show scraperDomain "https://en.www.example.com/list" ++
      "_companies.csv" = _
    rw [hdom]
    decide
  · show scraperDomain "https://en.www.example.com/list" ++
      "_companies.json" = _
    rw [hdom]
    decide
  · show scraperDomain "https://en.www.example.com/list" ++
      "_companies.csv" ≠ _
    rw [hdom]
    decide

/-- C9 (amended): for every base URL whose domain contains no
occurrence of `www.` beyond a possible leading one, the output
filenames are the domain with the leading `www.` stripped, dots
replaced by underscores, and `_companies.csv` / `_companies.json`
appended; in general the code removes every occurrence of `www.`, not
only a leading one. -/
theorem C9_output_filename_slug (base_url : String)
    (h : listHasSub "www.".data
      (if strHasPre "www." (urlNetloc base_url) then
        (urlNetloc base_url).data.drop 4
      else (urlNetloc base_url).data) = false) :
    csvFilename base_url =
      claimSlug (urlNetloc base_url) ++ "_companies.csv" ∧
    jsonFilename base_url =
      claimSlug (urlNetloc base_url) ++ "_companies.json" := by
  have hstrip : replAll "www.".data "".data (urlNetloc base_url).data =
      (if strHasPre "www." (urlNetloc base_url) then
        (urlNetloc base_url).data.drop 4
      else (urlNetloc base_url).data) := by
    by_cases hw : strHasPre "www." (urlNetloc base_url)
    · rw [if_pos hw]
      rw [if_pos hw] at h
      obtain ⟨t, ht⟩ :=
        listHasPre_exists "www.".data (urlNetloc base_url).data hw
      have ht4 : (urlNetloc base_url).data.drop 4 = t := by
        rw [ht, show (4 : ℕ) = ("www.".data).length from rfl, List.drop_left]
      rw [ht4] at h ⊢
      rw [ht, replAll_of_pre _ _ _ (by decide), List.nil_append,
        replAll_no_occ _ _ _ h]
    · rw [if_neg hw]
      rw [if_neg hw] at h
      exact replAll_no_occ _ _ _ h
  have hdom : scraperDomain base_url = claimSlug (urlNetloc base_url) := by
    unfold scraperDomain claimSlug
    rw [hstrip]
    by_cases hw : strHasPre "www." (urlNetloc base_url)
    · rw [if_pos hw, if_pos hw, replAll_dot_map]
    · rw [if_neg hw, if_neg hw, replAll_dot_map]
  constructor
  · show scraperDomain base_url ++ "_companies.csv" = _
    rw [hdom]
  · show scraperDomain base_url ++ "_companies.json" = _
    rw [hdom]

/-- C9 witness: a domain whose only `www.` is the leading one follows
the leading-strip slug exactly. -/
theorem C9_output_filename_slug_witness :
    csvFilename "https://www.example.com/list" =
      claimSlug (urlNetloc "https://www.example.com/list") ++
        "_companies.csv" :=
  (C9_output_filename_slug "https://www.example.com/list" (by decide)).1
